import Mathlib

/-!
Verification of the resilient rate-aggregation and pricing engine of
onemit-fx-compass, as a shallow embedding in Lean 4.

Numbers are modelled as rationals (the source uses JS numbers on values far
from overflow or precision cliffs); JS falsy checks `!x` on numbers become
`x = 0`; fallible calls become explicit outcome values; module-level mutable
state becomes explicit state records threaded through the functions.
-/

namespace FxCompass

/-! ## Pricing calculator (src/utils/currencyUtils.ts)

`calculateUsdPrice` and `calculateOtherCurrencyPrice` are pure functions.
The JS guards `if (!usdtNgnRate) return 0` and
`if (!usdtNgnRate || !currencyFxRate) return 0` test number falsiness,
i.e. equality with zero. -/

def calculateUsdPrice (usdtNgnRate usdMargin : ℚ) : ℚ :=
  if usdtNgnRate = 0 then 0
  else
    let marginDecimal := usdMargin / 100
    usdtNgnRate * (1 + marginDecimal)

def calculateOtherCurrencyPrice (usdtNgnRate currencyFxRate otherCurrenciesMargin
    usdtToUsdFee : ℚ) : ℚ :=
  if usdtNgnRate = 0 ∨ currencyFxRate = 0 then 0
  else
    let marginDecimal := otherCurrenciesMargin / 100
    usdtNgnRate * (1 - usdtToUsdFee) / currencyFxRate * (1 + marginDecimal)

/-- C4: for every positive base rate r and margin m, `calculateUsdPrice r m`
equals `r * (1 + m/100)`; in particular `calculateUsdPrice 1000 2.5 = 1025`. -/
theorem C4_calculateUsdPrice_formula :
    (∀ r m : ℚ, 0 < r → calculateUsdPrice r m = r * (1 + m / 100)) ∧
    calculateUsdPrice 1000 (5 / 2) = 1025 := by
  constructor
  · intro r m hr
    simp only [calculateUsdPrice]
    rw [if_neg (ne_of_gt hr)]
  · simp only [calculateUsdPrice]
    norm_num

/-- Witness for C4 at the concrete input (1000, 2.5). -/
theorem C4_calculateUsdPrice_formula_witness :
    calculateUsdPrice 1000 (5 / 2) = 1000 * (1 + (5 / 2) / 100) :=
  C4_calculateUsdPrice_formula.1 1000 (5 / 2) (by norm_num)

/-- C3 counterexample: `calculateOtherCurrencyPrice 1000 0.92 3 0.001` equals
exactly 102897/92 ≈ 1118.45, which differs from the claimed value 1118.09 by
more than 0.3 — far outside floating-point tolerance. -/
theorem C3_counterexample :
    calculateOtherCurrencyPrice 1000 (92 / 100) 3 (1 / 1000) = 102897 / 92 ∧
    (102897 / 92 : ℚ) - 111809 / 100 > 3 / 10 := by
  constructor
  · simp only [calculateOtherCurrencyPrice]
    norm_num
  · norm_num

/-- C3 amended: for every base rate r ≠ 0, fx rate f ≠ 0, margin m and fee t,
`calculateOtherCurrencyPrice r f m t = r * (1 - t) / f * (1 + m/100)`; in
particular at (1000, 0.92, 3, 0.001) it equals (1000 × 0.999 / 0.92) × 1.03
= 102897/92 ≈ 1118.45 (not ≈ 1118.09). -/
theorem C3_amended_other_currency_formula :
    (∀ r f m t : ℚ, r ≠ 0 → f ≠ 0 →
      calculateOtherCurrencyPrice r f m t = r * (1 - t) / f * (1 + m / 100)) ∧
    calculateOtherCurrencyPrice 1000 (92 / 100) 3 (1 / 1000) = 102897 / 92 := by
  constructor
  · intro r f m t hr hf
    simp only [calculateOtherCurrencyPrice]
    rw [if_neg]
    push_neg
    exact ⟨hr, hf⟩
  · simp only [calculateOtherCurrencyPrice]
    norm_num

/-- Witness for the amended C3 at the concrete input (1000, 0.92, 3, 0.001). -/
theorem C3_amended_other_currency_formula_witness :
    calculateOtherCurrencyPrice 1000 (92 / 100) 3 (1 / 1000) =
      1000 * (1 - 1 / 1000) / (92 / 100) * (1 + 3 / 100) :=
  C3_amended_other_currency_formula.1 1000 (92 / 100) 3 (1 / 1000)
    (by norm_num) (by norm_num)

/-- C8 counterexample: a negative base rate passes the falsy guard, so
`calculateOtherCurrencyPrice (-1000) 0.92 3 0.001` is strictly negative —
the function does not return 0 for a non-positive (negative) base rate. -/
theorem C8_counterexample :
    calculateOtherCurrencyPrice (-1000) (92 / 100) 3 (1 / 1000) < 0 := by
  simp only [calculateOtherCurrencyPrice]
  norm_num

/-- C8 amended: `calculateOtherCurrencyPrice` returns 0 exactly on the falsy
guard — base rate zero or fx rate zero; a negative base rate is not guarded
and produces a negative price (the caller `calculateAllCostPrices` screens
non-positive base rates before this function is reached). -/
theorem C8_amended_zero_guard :
    (∀ r f m t : ℚ, r = 0 ∨ f = 0 → calculateOtherCurrencyPrice r f m t = 0) ∧
    calculateOtherCurrencyPrice (-1000) (92 / 100) 3 (1 / 1000) = -(102897 / 92) := by
  constructor
  · intro r f m t h
    simp only [calculateOtherCurrencyPrice]
    rw [if_pos h]
  · simp only [calculateOtherCurrencyPrice]
    norm_num

/-- Witness for the amended C8, zero fx rate at a concrete input. -/
theorem C8_amended_zero_guard_witness :
    calculateOtherCurrencyPrice 1000 0 3 (1 / 1000) = 0 :=
  C8_amended_zero_guard.1 1000 0 3 (1 / 1000) (Or.inr rfl)

/-! ## Retry controller (src/services/bybit.ts, fetchBybitRateWithRetry)

One call to `getBybitP2PRate` either throws (message e) or returns a response;
the fields of the response that the retry loop inspects are `success`,
`market_summary.total_traders`, `market_summary.price_range.median` and the
optional `error` string.  The loop body classifies an attempt as a success
(a positive median with traders present) or a failure carrying the error
string the source assigns to `lastError`. -/

inductive BybitOutcome where
  | throws (err : String)
  | returns (success : Bool) (totalTraders : ℕ) (median : ℚ) (error : Option String)
deriving DecidableEq

def evalAttempt : BybitOutcome → ℚ ⊕ String
  | BybitOutcome.throws e => Sum.inr (if e = "" then "Unknown error" else e)
  | BybitOutcome.returns success totalTraders median err =>
    if success = true ∧ 0 < totalTraders then
      if 0 < median then Sum.inl median
      else Sum.inr "Received invalid rate value (zero or negative)"
    else
      Sum.inr (match err with
        | some e => if e = "" then "No traders found or empty response" else e
        | none => "No traders found or empty response")

structure RetryTrace where
  rate : Option ℚ
  error : Option String
  invocations : ℕ
  delays : ℕ
deriving DecidableEq

/-- The `for (let attempt = 1; attempt <= maxRetries; attempt++)` loop, with
`remaining = maxRetries - attempt + 1` iterations left.  A success returns
`{ rate }` at once; a failure on a non-final attempt waits once (`delays`)
and continues with the updated `lastError`; after the final attempt the loop
falls through to `{ rate: null, error: lastError }`. -/
def retryGo (op : ℕ → BybitOutcome) : ℕ → ℕ → String → RetryTrace
  | 0, _, lastError => ⟨none, some lastError, 0, 0⟩
  | remaining + 1, attempt, _ =>
    match evalAttempt (op attempt) with
    | Sum.inl rate => ⟨some rate, none, 1, 0⟩
    | Sum.inr err =>
      match remaining with
      | 0 => ⟨none, some err, 1, 0⟩
      | r + 1 =>
        let rest := retryGo op (r + 1) (attempt + 1) err
        ⟨rest.rate, rest.error, rest.invocations + 1, rest.delays + 1⟩

def fetchBybitRateWithRetry (op : ℕ → BybitOutcome) (maxRetries : ℕ) : RetryTrace :=
  retryGo op maxRetries 1 ""

theorem retryGo_all_fail (op : ℕ → BybitOutcome) (err : ℕ → String) :
    ∀ remaining attempt lastError, 1 ≤ remaining →
    (∀ k, attempt ≤ k → k < attempt + remaining → evalAttempt (op k) = Sum.inr (err k)) →
    retryGo op remaining attempt lastError =
      ⟨none, some (err (attempt + remaining - 1)), remaining, remaining - 1⟩ := by
  intro remaining
  induction remaining with
  | zero => intro _ _ h; omega
  | succ r ih =>
    intro attempt lastError _ hf
    have h1 : evalAttempt (op attempt) = Sum.inr (err attempt) :=
      hf attempt le_rfl (by omega)
    cases r with
    | zero =>
      have h2 : attempt + 1 - 1 = attempt := by omega
      simp only [retryGo, h1, h2]
    | succ r' =>
      have hrest := ih (attempt + 1) (err attempt) (by omega)
        (fun k hk1 hk2 => hf k (by omega) (by omega))
      have h2 : attempt + 1 + (r' + 1) - 1 = attempt + (r' + 1 + 1) - 1 := by omega
      have h3 : r' + 1 - 1 + 1 = r' + 1 + 1 - 1 := by omega
      simp only [retryGo, h1, hrest, h2, h3]

theorem retryGo_first_success (op : ℕ → BybitOutcome) (k : ℕ) (rate : ℚ)
    (hsucc : evalAttempt (op k) = Sum.inl rate) :
    ∀ remaining attempt lastError, attempt ≤ k → k < attempt + remaining →
    (∀ j, attempt ≤ j → j < k → ∃ e, evalAttempt (op j) = Sum.inr e) →
    retryGo op remaining attempt lastError =
      ⟨some rate, none, k - attempt + 1, k - attempt⟩ := by
  intro remaining
  induction remaining with
  | zero => intro _ _ _ h; omega
  | succ r ih =>
    intro attempt lastError hk1 hk2 hfail
    rcases Nat.eq_or_lt_of_le hk1 with heq | hlt
    · subst heq
      have h2 : attempt - attempt + 1 = 1 := by omega
      have h3 : attempt - attempt = 0 := by omega
      simp only [retryGo, hsucc, h2, h3]
    · obtain ⟨e, he⟩ := hfail attempt le_rfl hlt
      cases r with
      | zero => omega
      | succ r' =>
        have hrest := ih (attempt + 1) e (by omega) (by omega)
          (fun j hj1 hj2 => hfail j (by omega) hj2)
        have h3 : k - (attempt + 1) + 1 = k - attempt := by omega
        simp only [retryGo, he, hrest, h3]

/-- C5: with maxAttempts ≥ 1, an operation failing on every attempt is invoked
exactly maxAttempts times, the inter-attempt delay fires exactly
maxAttempts − 1 times, and the surfaced error is the last attempt's error; an
operation that first succeeds on attempt k ≤ maxAttempts is invoked exactly k
times, with k − 1 delays, and its rate is returned. -/
theorem C5_fetchBybitRateWithRetry_bounds :
    (∀ (op : ℕ → BybitOutcome) (n : ℕ) (err : ℕ → String), 1 ≤ n →
      (∀ k, 1 ≤ k → k ≤ n → evalAttempt (op k) = Sum.inr (err k)) →
      fetchBybitRateWithRetry op n = ⟨none, some (err n), n, n - 1⟩) ∧
    (∀ (op : ℕ → BybitOutcome) (n k : ℕ) (rate : ℚ), 1 ≤ k → k ≤ n →
      (∀ j, 1 ≤ j → j < k → ∃ e, evalAttempt (op j) = Sum.inr e) →
      evalAttempt (op k) = Sum.inl rate →
      fetchBybitRateWithRetry op n = ⟨some rate, none, k, k - 1⟩) := by
  constructor
  · intro op n err hn hf
    have h := retryGo_all_fail op err n 1 "" hn
      (fun k hk1 hk2 => hf k hk1 (by omega))
    have h2 : 1 + n - 1 = n := by omega
    rw [h2] at h
    exact h
  · intro op n k rate hk1 hk2 hfail hsucc
    have h := retryGo_first_success op k rate hsucc n 1 "" hk1 (by omega) hfail
    have h2 : k - 1 + 1 = k := by omega
    rw [h2] at h
    exact h

/-- Witness for C5: a fetch that always throws "boom", with maxAttempts = 3,
is invoked 3 times, delays twice, and surfaces "boom". -/
theorem C5_fetchBybitRateWithRetry_bounds_witness :
    fetchBybitRateWithRetry (fun _ => BybitOutcome.throws "boom") 3 =
      ⟨none, some "boom", 3, 2⟩ :=
  C5_fetchBybitRateWithRetry_bounds.1 (fun _ => BybitOutcome.throws "boom") 3
    (fun _ => "boom") (by decide) (fun k h1 h2 => rfl)

/-! ## Attempt throttle (vertoRateLoader: timestamp pair and cooldown check)

The source keeps a module-level `lastApiAttemptTimestamp` mirrored in
`localStorage`.  `TState` carries both: `mem` is the in-memory number and
`store` the persisted value (`none` when the key is absent; our operations
only ever store integer strings, so a present value always parses). -/

structure TState where
  mem : ℤ
  store : Option ℤ
deriving DecidableEq

/-- `setLastApiAttemptTimestamp`: writes both the in-memory value and the
localStorage mirror. -/
def setLastApiAttemptTimestamp (t : ℤ) (_ : TState) : TState :=
  ⟨t, some t⟩

/-- `getLastApiAttemptTimestamp`: reads localStorage; when a parseable value
is present the in-memory value becomes `max` of the two and is returned,
otherwise the in-memory value is returned unchanged. -/
def getLastApiAttemptTimestamp (s : TState) : ℤ × TState :=
  match s.store with
  | some v => (max s.mem v, ⟨max s.mem v, some v⟩)
  | none => (s.mem, s)

/-- `bypassRateLimitingCooldown`: records `now - 60000` so the next cooldown
check passes. -/
def bypassRateLimitingCooldown (now : ℤ) (s : TState) : TState :=
  setLastApiAttemptTimestamp (now - 60000) s

/-- The cooldown gate inside `loadVertoFxRates`:
`forceRefresh || (Date.now() - lastAttemptTime > 30000)`. -/
def shouldCallApi (forceRefresh : Bool) (now lastAttemptTime : ℤ) : Bool :=
  forceRefresh || decide (now - lastAttemptTime > 30000)

/-- C6: the throttle gate is true when forced, or when more than 30000 ms have
passed since the last attempt, or when no attempt was ever recorded (the
timestamp still holds its initial 0 and the clock reads a positive epoch time
past the cooldown); it is false for every non-forced call within 30000 ms of
the last recorded attempt. -/
theorem C6_shouldCallApi_gate :
    (∀ now last : ℤ, shouldCallApi true now last = true) ∧
    (∀ (f : Bool) (now last : ℤ), now - last > 30000 →
      shouldCallApi f now last = true) ∧
    (∀ now : ℤ, 30000 < now → shouldCallApi false now 0 = true) ∧
    (∀ now last : ℤ, now - last ≤ 30000 → shouldCallApi false now last = false) := by
  refine ⟨fun now last => rfl, fun f now last h => ?_, fun now h => ?_, fun now last h => ?_⟩
  · simp [shouldCallApi, h]
  · simp [shouldCallApi]
    omega
  · simp [shouldCallApi]
    omega

/-- Witness for C6: a non-forced call 10 s after an attempt is throttled. -/
theorem C6_shouldCallApi_gate_witness :
    shouldCallApi false 40000 30000 = false :=
  C6_shouldCallApi_gate.2.2.2 40000 30000 (by norm_num)

/-! ### C7: sequences of throttle operations -/

inductive TOp where
  | record (t : ℤ)
  | read
  | bypass (now : ℤ)
deriving DecidableEq

/-- Runs a sequence of throttle operations from a starting state, collecting
the value observed by each read. -/
def runThrottle : TState → List TOp → TState × List ℤ
  | s, [] => (s, [])
  | s, TOp.record t :: rest => runThrottle (setLastApiAttemptTimestamp t s) rest
  | s, TOp.bypass now :: rest => runThrottle (bypassRateLimitingCooldown now s) rest
  | s, TOp.read :: rest =>
    let r := getLastApiAttemptTimestamp s
    let p := runThrottle r.2 rest
    (p.1, r.1 :: p.2)

/-- The value a read would observe in state `s`. -/
def obsVal (s : TState) : ℤ :=
  match s.store with
  | some v => max s.mem v
  | none => s.mem

/-- A bypass-free operation sequence whose recorded timestamps are at least
`lo` and non-decreasing along the list (records made with a real,
non-decreasing clock). -/
def validOps : ℤ → List TOp → Bool
  | _, [] => true
  | lo, TOp.record t :: rest => decide (lo ≤ t) && validOps t rest
  | _, TOp.bypass _ :: _ => false
  | lo, TOp.read :: rest => validOps lo rest

theorem obsVal_get (s : TState) : obsVal (getLastApiAttemptTimestamp s).2 = obsVal s := by
  cases h : s.store with
  | none => simp [getLastApiAttemptTimestamp, h]
  | some v => simp [getLastApiAttemptTimestamp, obsVal, h, max_assoc]

theorem get_fst_eq_obsVal (s : TState) : (getLastApiAttemptTimestamp s).1 = obsVal s := by
  cases h : s.store with
  | none => simp [getLastApiAttemptTimestamp, obsVal, h]
  | some v => simp [getLastApiAttemptTimestamp, obsVal, h]

theorem runThrottle_mono : ∀ (ops : List TOp) (lo : ℤ) (s : TState),
    validOps lo ops = true → obsVal s ≤ lo →
    List.Chain' (fun a b => a ≤ b) (runThrottle s ops).2 ∧
    ∀ x ∈ (runThrottle s ops).2, obsVal s ≤ x := by
  intro ops
  induction ops with
  | nil => intro lo s _ _; simp [runThrottle]
  | cons op rest ih =>
    intro lo s hv h0
    cases op with
    | record t =>
      simp only [validOps, Bool.and_eq_true, decide_eq_true_eq] at hv
      have hobs : obsVal (setLastApiAttemptTimestamp t s) = t := by
        simp [setLastApiAttemptTimestamp, obsVal]
      obtain ⟨hchain, hall⟩ := ih t (setLastApiAttemptTimestamp t s) hv.2 (le_of_eq hobs)
      refine ⟨hchain, fun x hx => ?_⟩
      have := hall x hx
      rw [hobs] at this
      exact le_trans (le_trans h0 hv.1) this
    | bypass now => simp [validOps] at hv
    | read =>
      simp only [validOps] at hv
      have hobs := obsVal_get s
      obtain ⟨hchain, hall⟩ := ih lo (getLastApiAttemptTimestamp s).2 hv (by rw [hobs]; exact h0)
      simp only [runThrottle]
      rw [List.chain'_cons']
      refine ⟨⟨fun b hb => ?_, hchain⟩, fun x hx => ?_⟩
      · have hmem := List.mem_of_mem_head? hb
        have := hall b hmem
        rw [hobs] at this
        rw [get_fst_eq_obsVal]
        exact this
      · rcases List.mem_cons.mp hx with hx | hx
        · rw [hx, get_fst_eq_obsVal]
        · have := hall x hx
          rw [hobs] at this
          exact this

/-- C7 counterexample: recording an attempt at t = 100000 and then forcing a
refresh at t = 100001 (which writes 100001 − 60000 = 40001) makes a later read
observe 40001 < 100000 — the observed last-attempt timestamp decreases. -/
theorem C7_counterexample :
    (runThrottle ⟨0, none⟩
        [TOp.record 100000, TOp.read, TOp.bypass 100001, TOp.read]).2 =
      [100000, 40001] ∧ (40001 : ℤ) < 100000 := by
  constructor
  · rfl
  · norm_num

/-- C7 amended: every read returns the more recent (max) of the in-memory and
persisted timestamps; and for every bypass-free operation sequence whose
recorded timestamps are non-decreasing and start no earlier than the initial
observed value, the sequence of observed timestamps is monotonically
non-decreasing.  The forced-refresh bypass deliberately rewinds the timestamp
to now − 60000 to defeat the cooldown, so it is excluded from monotonicity. -/
theorem C7_amended_throttle_monotone (s : TState) (lo : ℤ) (ops : List TOp)
    (hops : validOps lo ops = true) (h0 : obsVal s ≤ lo) :
    List.Chain' (fun a b => a ≤ b) (runThrottle s ops).2 ∧
    ∀ m v : ℤ, (getLastApiAttemptTimestamp ⟨m, some v⟩).1 = max m v :=
  ⟨(runThrottle_mono ops lo s hops h0).1, fun _ _ => rfl⟩

/-- Witness for the amended C7 on a concrete record/read sequence. -/
theorem C7_amended_throttle_monotone_witness :
    List.Chain' (fun a b => a ≤ b)
      (runThrottle ⟨0, none⟩ [TOp.read, TOp.record 50000, TOp.read, TOp.record 90000,
        TOp.read]).2 :=
  (C7_amended_throttle_monotone ⟨0, none⟩ 50000
    [TOp.read, TOp.record 50000, TOp.read, TOp.record 90000, TOp.read]
    (by decide) (by decide)).1

/-! ## VertoFX rate loader (vertoRateLoader, loadVertoFxRates)

`VertoFXRates` is a record from currency code to a buy/sell pair, modelled as
an association list in object-key order.  `VertoState` packages the
module-level mutable variables (`lastSuccessfulVertoFxRates`,
`lastApiAttemptTimestamp` as its merged read value — the memory/storage pair
is modelled separately above — and `lastApiSuccess`) together with the
current `cacheWithExpiration` entry for the vertoRates key (`none` when
absent or expired).  A fetch outcome is `fail` (the promise rejected or the
timeout race fired) or `ok rates` (the parsed payload).  The synchronous
result records the returned rates, the state after the call, and the toasts
surfaced; the detached background task of the mobile cache path happens after
the function returns and is outside this model. -/

structure CRate where
  buy : ℚ
  sell : ℚ
deriving DecidableEq

abbrev VertoFXRates := List (String × CRate)

def DEFAULT_VERTOFX_RATES : VertoFXRates :=
  [("USD", ⟨1635, 1600⟩), ("EUR", ⟨1870, 1805⟩),
   ("GBP", ⟨2150, 2080⟩), ("CAD", ⟨1190, 1140⟩)]

structure VertoState where
  lastSuccessfulVertoFxRates : VertoFXRates
  lastApiAttemptTimestamp : ℤ
  lastApiSuccess : Bool
  cachedVertoRates : Option VertoFXRates
deriving DecidableEq

inductive FetchResult where
  | fail
  | ok (rates : VertoFXRates)
deriving DecidableEq

inductive Toast where
  | successToast
  | errorToast
deriving DecidableEq

structure LoadResult where
  returned : VertoFXRates
  state : VertoState
  toasts : List Toast
deriving DecidableEq

/-- The validity check of lines 131-135: a non-null payload with at least one
key and at least one pair with a positive buy or sell. -/
def hasValidRates (rates : VertoFXRates) : Bool :=
  !rates.isEmpty && rates.any (fun p => decide (0 < p.2.buy) || decide (0 < p.2.sell))

def loadVertoFxRates (st : VertoState) (isMobile forceRefresh : Bool) (now : ℤ)
    (fetch : FetchResult) : LoadResult :=
  let st1 := if forceRefresh then { st with lastApiAttemptTimestamp := now - 60000 } else st
  if isMobile = true ∧ st1.lastSuccessfulVertoFxRates ≠ [] ∧ st1.cachedVertoRates ≠ none then
    { returned := st1.cachedVertoRates.getD [], state := st1, toasts := [] }
  else if shouldCallApi forceRefresh now st1.lastApiAttemptTimestamp then
    (match fetch with
      | FetchResult.ok vertoRates =>
        if hasValidRates vertoRates then
          let st2 := { st1 with lastSuccessfulVertoFxRates := vertoRates,
                                lastApiSuccess := true,
                                cachedVertoRates := some vertoRates }
          let isFirstSuccess := ! st2.lastApiSuccess
          { returned := vertoRates,
            state := { st2 with lastApiAttemptTimestamp := now },
            toasts := if isFirstSuccess || forceRefresh then [Toast.successToast] else [] }
        else
          { returned := DEFAULT_VERTOFX_RATES,
            state := { st1 with lastApiSuccess := false, lastApiAttemptTimestamp := now },
            toasts := [Toast.errorToast] }
      | FetchResult.fail =>
        { returned := DEFAULT_VERTOFX_RATES,
          state := { st1 with lastApiSuccess := false, lastApiAttemptTimestamp := now },
          toasts := [Toast.errorToast] })
  else if st1.lastSuccessfulVertoFxRates ≠ [] ∧
      st1.lastSuccessfulVertoFxRates ≠ DEFAULT_VERTOFX_RATES then
    { returned := st1.lastSuccessfulVertoFxRates, state := st1, toasts := [] }
  else
    { returned := DEFAULT_VERTOFX_RATES, state := st1, toasts := [] }

/-- C1 counterexample: a live fetch whose payload parses but is all-zero, made
while a non-default last-known-good `[("USD", (1700, 1650))]` exists, returns
the hardcoded defaults — not the last-known-good rates. -/
theorem C1_counterexample :
    (loadVertoFxRates ⟨[("USD", ⟨1700, 1650⟩)], 0, true, none⟩ false false 40000
        (FetchResult.ok [("USD", ⟨0, 0⟩)])).returned = DEFAULT_VERTOFX_RATES ∧
    decide ((loadVertoFxRates ⟨[("USD", ⟨1700, 1650⟩)], 0, true, none⟩ false false 40000
        (FetchResult.ok [("USD", ⟨0, 0⟩)])).returned = [("USD", ⟨1700, 1650⟩)]) = false := by
  constructor
  · rfl
  · rfl

/-- C1 amended: a live fetch whose payload parses but contains no usable rate
values is handled exactly like a transport failure — identical returned
rates, state update and notification — and both branches return the hardcoded
`DEFAULT_VERTOFX_RATES`, never the zero-valued payload; the last-known-good
rates are not consulted on this branch (they are served only when the
cooldown suppresses the fetch). -/
theorem C1_amended_invalid_payload (st : VertoState) (forceRefresh : Bool)
    (now : ℤ) (rates : VertoFXRates)
    (hinv : hasValidRates rates = false)
    (hcall : forceRefresh = true ∨ now - st.lastApiAttemptTimestamp > 30000) :
    loadVertoFxRates st false forceRefresh now (FetchResult.ok rates) =
      loadVertoFxRates st false forceRefresh now FetchResult.fail ∧
    (loadVertoFxRates st false forceRefresh now (FetchResult.ok rates)).returned =
      DEFAULT_VERTOFX_RATES := by
  cases forceRefresh with
  | true =>
    simp [loadVertoFxRates, shouldCallApi, hinv]
  | false =>
    have h : now - st.lastApiAttemptTimestamp > 30000 := by
      rcases hcall with hc | hc
      · exact absurd hc (by simp)
      · exact hc
    simp [loadVertoFxRates, shouldCallApi, hinv, h]

/-- Witness for the amended C1 at a concrete state and all-zero payload. -/
theorem C1_amended_invalid_payload_witness :
    loadVertoFxRates ⟨[("USD", ⟨1700, 1650⟩)], 0, true, none⟩ false false 40000
        (FetchResult.ok [("USD", ⟨0, 0⟩)]) =
      loadVertoFxRates ⟨[("USD", ⟨1700, 1650⟩)], 0, true, none⟩ false false 40000
        FetchResult.fail :=
  (C1_amended_invalid_payload ⟨[("USD", ⟨1700, 1650⟩)], 0, true, none⟩ false 40000
    [("USD", ⟨0, 0⟩)] (by decide) (Or.inr (by decide))).1

/-- C2: when the live fetch fails, nothing is cached, and no last-known-good
exists (the stored last-successful rates are still the defaults),
`loadVertoFxRates` returns the hardcoded default rate set, whose four
currency entries are all populated with buy and sell values ≥ 0. -/
theorem C2_default_on_total_failure (st : VertoState) (isMobile forceRefresh : Bool)
    (now : ℤ) (hcache : st.cachedVertoRates = none)
    (hlkg : st.lastSuccessfulVertoFxRates = DEFAULT_VERTOFX_RATES) :
    (loadVertoFxRates st isMobile forceRefresh now FetchResult.fail).returned =
      DEFAULT_VERTOFX_RATES ∧
    (loadVertoFxRates st isMobile forceRefresh now FetchResult.fail).returned.map
      Prod.fst = ["USD", "EUR", "GBP", "CAD"] ∧
    ∀ p ∈ (loadVertoFxRates st isMobile forceRefresh now FetchResult.fail).returned,
      0 ≤ p.2.buy ∧ 0 ≤ p.2.sell := by
  have hret : (loadVertoFxRates st isMobile forceRefresh now FetchResult.fail).returned =
      DEFAULT_VERTOFX_RATES := by
    cases forceRefresh with
    | true =>
      simp [loadVertoFxRates, shouldCallApi, hcache, hlkg]
    | false =>
      simp only [loadVertoFxRates, shouldCallApi]
      split_ifs with h1 h2 h3 <;> simp_all
  refine ⟨hret, ?_, ?_⟩
  · rw [hret]; rfl
  · rw [hret]; decide

/-- Witness for C2 at a concrete never-succeeded state. -/
theorem C2_default_on_total_failure_witness :
    (loadVertoFxRates ⟨DEFAULT_VERTOFX_RATES, 0, false, none⟩ false false 99999
        FetchResult.fail).returned = DEFAULT_VERTOFX_RATES :=
  (C2_default_on_total_failure ⟨DEFAULT_VERTOFX_RATES, 0, false, none⟩ false false 99999
    rfl rfl).1

/-- C9: at a state whose preceding live attempt failed (`lastApiSuccess` is
false), an unforced fetch that succeeds with valid rates surfaces no toast at
all: the source assigns `lastApiSuccess = true` before computing
`isFirstSuccess = !lastApiSuccess`, so the recovery notice can never fire —
the code contradicts its own comment and the documented intent. -/
theorem C9_recovery_toast_never_fires :
    (loadVertoFxRates ⟨DEFAULT_VERTOFX_RATES, 0, false, none⟩ false false 40000
        (FetchResult.ok [("USD", ⟨1700, 1650⟩)])).toasts = [] := by
  decide

/-! ## Cost-price recalculation (useCurrencyData, calculateAllCostPrices)

`CostState` holds the two React state cells the function can write:
`costPrices` and `previousCostPrices`.  `CurrencyRates` is the fx-rates
record as an association list.  The function returns the state after the
call: unchanged on a failed guard, otherwise previous := old costPrices and
costPrices := the freshly built set (USD first, then every non-USD currency
of the fx map, in order). -/

abbrev CurrencyRates := List (String × ℚ)

def USDT_TO_USD_FEE : ℚ := 1 / 1000

structure CostState where
  costPrices : CurrencyRates
  previousCostPrices : CurrencyRates
deriving DecidableEq

def calculateAllCostPrices (st : CostState) (usdtNgnRate : ℚ) (fxRates : CurrencyRates)
    (usdMargin otherCurrenciesMargin : ℚ) : CostState :=
  if usdtNgnRate = 0 ∨ usdtNgnRate ≤ 0 then st
  else if fxRates = [] then st
  else
    { costPrices :=
        ("USD", calculateUsdPrice usdtNgnRate usdMargin) ::
          (fxRates.filter (fun p => p.1 != "USD")).map
            (fun p => (p.1, calculateOtherCurrencyPrice usdtNgnRate p.2
              otherCurrenciesMargin USDT_TO_USD_FEE)),
      previousCostPrices := st.costPrices }

/-- C10: when the USDT/NGN rate is not strictly positive or the fx-rates map
is empty, `calculateAllCostPrices` returns with both `costPrices` and
`previousCostPrices` unchanged, for any margin arguments. -/
theorem C10_guard_leaves_state_unchanged (st : CostState) (usdtNgnRate : ℚ)
    (fxRates : CurrencyRates) (usdMargin otherCurrenciesMargin : ℚ)
    (h : usdtNgnRate ≤ 0 ∨ fxRates = []) :
    calculateAllCostPrices st usdtNgnRate fxRates usdMargin otherCurrenciesMargin = st := by
  rcases h with h | h
  · simp only [calculateAllCostPrices]
    rw [if_pos (Or.inr h)]
  · by_cases h1 : usdtNgnRate = 0 ∨ usdtNgnRate ≤ 0
    · simp only [calculateAllCostPrices]
      rw [if_pos h1]
    · simp only [calculateAllCostPrices]
      rw [if_neg h1, if_pos h]

/-- Witness for C10: a zero base rate leaves a concrete state untouched. -/
theorem C10_guard_leaves_state_unchanged_witness :
    calculateAllCostPrices ⟨[("USD", 1500)], []⟩ 0 [("EUR", 92 / 100)] (5 / 2) 3 =
      ⟨[("USD", 1500)], []⟩ :=
  C10_guard_leaves_state_unchanged ⟨[("USD", 1500)], []⟩ 0 [("EUR", 92 / 100)] (5 / 2) 3
    (Or.inl le_rfl)

end FxCompass
